import Mathlib

/-!
Shallow embedding of the reconciliation/diff core of the
rackspace-email-management repository (src/rackspace/account.py,
src/rackspace/alias.py, src/rackspace/spam.py, src/sync.py,
src/sync-inc.py).  Python scalar values are modelled by `Val`, Python
attribute dictionaries by association lists in insertion order, and each
diff/update/serialize routine is translated function by function from the
source.
-/

/-- A Python scalar value as used by the entity models: `str`, `int` or
`bool`.  These are the only value types appearing in the field schemas. -/
inductive Val where
  | str (s : String)
  | int (n : Int)
  | bool (b : Bool)
deriving DecidableEq, Repr

/-- A declared field type: the `str` / `int` / `bool` type objects that the
schemas (`Account.__FIELDS`, spam `Field.__type`) store. -/
inductive PyType where
  | str
  | int
  | bool
deriving DecidableEq, Repr

/-- The per-type zero default computed inside `Account.diff` (and
`Account.add`): `''` for `str`, `0` for `int`, `False` for `bool`
(account.py lines 300-309). -/
def typeDefault : PyType → Val
  | PyType.str => Val.str ""
  | PyType.int => Val.int 0
  | PyType.bool => Val.bool false

/-- First-match lookup in an association list, modelling Python
`dict` indexing / `getattr` on attribute dictionaries (keys are unique in
every dictionary the source builds). -/
def lookupKey {α : Type} : List (String × α) → String → Option α
  | [], _ => none
  | (k, v) :: rest, key => if k = key then some v else lookupKey rest key

/-- Remove the binding of `key`, modelling `dict.pop(key)` on a dictionary
whose keys are unique (only the first occurrence is removed). -/
def eraseKey {α : Type} : List (String × α) → String → List (String × α)
  | [], _ => []
  | (k, v) :: rest, key => if k = key then rest else (k, v) :: eraseKey rest key

/-- `dict.update({key: val})` / `dict[key] = val`: replace the value in
place when the key exists, append the binding otherwise. -/
def updateAssoc {α : Type} : List (String × α) → String → α → List (String × α)
  | [], key, v => [(key, v)]
  | (k, w) :: rest, key, v =>
      if k = key then (key, v) :: rest else (k, w) :: updateAssoc rest key v

/-- An `Account` object's attribute state: the subset of schema fields that
have been `setattr`-ed, with their values (account.py `Account`). -/
structure Account where
  attrs : List (String × Val)
deriving DecidableEq, Repr

/-- `getattr(self, field, default)` on an account. -/
def Account.getattr (a : Account) (field : String) (dflt : Val) : Val :=
  (lookupKey a.attrs field).getD dflt

/-- `Account.__FIELDS` (account.py lines 61-108), in source order. -/
def accountFields : List (String × PyType) :=
  [("businessCity", PyType.str),
   ("businessCountry", PyType.str),
   ("businessNumber", PyType.str),
   ("businessPostalCode", PyType.str),
   ("businessState", PyType.str),
   ("businessStreet", PyType.str),
   ("createdDate", PyType.str),
   ("currentUsage", PyType.int),
   ("customID", PyType.str),
   ("displayName", PyType.str),
   ("employeeType", PyType.str),
   ("enabled", PyType.bool),
   ("enableForwardingAddresses", PyType.str),
   ("enableVacationMessage", PyType.bool),
   ("faxNumber", PyType.str),
   ("firstName", PyType.str),
   ("generationQualifier", PyType.str),
   ("homeCity", PyType.str),
   ("homeCountry", PyType.str),
   ("homeFaxNumber", PyType.str),
   ("homeNumber", PyType.str),
   ("homePostalAddress", PyType.str),
   ("homePostalCode", PyType.str),
   ("homeState", PyType.str),
   ("homeStreet", PyType.str),
   ("initials", PyType.str),
   ("lastLogin", PyType.str),
   ("lastName", PyType.str),
   ("mobileNumber", PyType.str),
   ("name", PyType.str),
   ("notes", PyType.str),
   ("organizationalStatus", PyType.str),
   ("organization", PyType.str),
   ("organizationUnit", PyType.str),
   ("pagerNumber", PyType.str),
   ("password", PyType.str),
   ("personalTitle", PyType.str),
   ("recoverDeleted", PyType.bool),
   ("saveForwardedEmail", PyType.bool),
   ("size", PyType.int),
   ("title", PyType.str),
   ("userID", PyType.str),
   ("vacationMessage", PyType.str),
   ("visibleInExchangeGAL", PyType.bool),
   ("visibleInRackspaceEmailCompanyDirectory", PyType.bool)]

/-- `Account.__READONLY` (account.py lines 110-115). -/
def accountReadOnly : List String :=
  ["currentUsage", "createdDate", "lastLogin", "name"]

/-- The `ignore` list local to `Account.diff` (account.py line 294). -/
def accountIgnore : List String :=
  ["password", "recoverDeleted", "name", "spam"]

/-- `Account.diff` (account.py lines 270-316): for every schema field that
is neither read-only nor ignored, compare `getattr(self, field, default)`
with `getattr(other, field, default)` (default = the declared type's zero)
and record `{field: self value}` when they differ. -/
def Account.diff (self other : Account) : List (String × Val) :=
  accountFields.filterMap fun ft =>
    if ft.1 ∈ accountReadOnly ∨ ft.1 ∈ accountIgnore then none
    else
      let d := typeDefault ft.2
      let newVal := self.getattr ft.1 d
      let oldVal := other.getattr ft.1 d
      if newVal ≠ oldVal then some (ft.1, newVal) else none

/-- An `Alias` object's state: its (local-part) name and the list of target
addresses `self.data` (alias.py `Alias`). -/
structure Alias where
  name : String
  data : List String
deriving DecidableEq, Repr

/-- The inner loop of `Alias.diff` (alias.py lines 200-204): walk `src`,
appending each address that is neither in `dst` nor already collected.
`acc` is the list built so far (`diff[key]` in the source). -/
def diffGo (dst : List String) : List String → List String → List String
  | acc, [] => acc
  | acc, a :: rest =>
      if a ∉ dst ∧ a ∉ acc then diffGo dst (acc ++ [a]) rest
      else diffGo dst acc rest

/-- The dictionary returned by `Alias.diff`: `add`, `del`, `old`, `new`,
`changes` (alias.py line 198). -/
structure AliasDiffResult where
  add : List String
  del : List String
  old : List String
  new : List String
  changes : Nat
deriving DecidableEq, Repr

/-- `Alias.diff` (alias.py lines 177-206): `add` collects the addresses of
`self` missing from `other`, `del` the addresses of `other` missing from
`self`; `changes` is incremented once per appended address, so it equals
the two list lengths added together. -/
def Alias.diff (self other : Alias) : AliasDiffResult :=
  { add := diffGo other.data [] self.data
    del := diffGo self.data [] other.data
    old := other.data
    new := self.data
    changes := (diffGo other.data [] self.data).length
               + (diffGo self.data [] other.data).length }

/-- `','.join(...)` on a list of strings. -/
def joinComma (l : List String) : String := String.intercalate "," l

/-- The one API request issued by `Alias.update`: a full-replace `PUT`, a
single-address `POST`, a single-address `DELETE`, or the `raise` branch. -/
inductive AliasApiCall where
  | put (path : String) (aliasEmails : String)
  | post (path : String)
  | deleteReq (path : String)
  | err
deriving DecidableEq, Repr

/-- `Alias.update` (alias.py lines 312-361): `changes > 1` issues one `PUT`
to the alias path with `aliasEmails` the comma-joined `new` list; otherwise
a non-empty `add` issues one `POST` to `path/<add[0]>`, a non-empty `del`
one `DELETE` of `path/<del[0]>`, and an empty diff raises. -/
def Alias.update (path : String) (d : AliasDiffResult) : AliasApiCall :=
  if d.changes > 1 then AliasApiCall.put path (joinComma d.new)
  else if d.add ≠ [] then AliasApiCall.post (path ++ "/" ++ d.add.headD "")
  else if d.del ≠ [] then AliasApiCall.deleteReq (path ++ "/" ++ d.del.headD "")
  else AliasApiCall.err

/-- `Alias.add_address` (alias.py lines 163-175): append the address only
when it is not already present. -/
def addAddress (data : List String) (address : String) : List String :=
  if address ∈ data then data else data ++ [address]

/-- The three data shapes `Alias.__load` accepts through its `data`
argument (alias.py lines 146-159): a provider row carrying
`numberOfMembers`/`singleMemberName`, a follow-up response carrying
`emailAddressList.emailAddress`, or a plain list of addresses. -/
inductive AliasLoadData where
  | row (numberOfMembers : Nat) (singleMemberName : String)
  | emailList (addrs : List String)
  | plainList (addrs : List String)
deriving DecidableEq, Repr

/-- The `data` branch of `Alias.__load`: the resulting `self.data`, or
`none` for the `raise Exception('Should never be here')` branch (a row
whose `numberOfMembers` is not 1). The list shapes are stored verbatim. -/
def aliasLoadData : AliasLoadData → Option (List String)
  | AliasLoadData.row n single => if n = 1 then some [single] else none
  | AliasLoadData.emailList addrs => some addrs
  | AliasLoadData.plainList addrs => some addrs

/-- The `address` branch of `Alias.__load` (alias.py lines 136-144): a
list is stored verbatim, a single string is wrapped in a list. -/
def aliasLoadAddress : Sum String (List String) → List String
  | Sum.inl a => [a]
  | Sum.inr l => l

/-- An `ACL` object's entry list (spam.py `ACL`). `ACL.__eq__` compares
the two `data` lists as sets. -/
structure ACL where
  data : List String
deriving DecidableEq, Repr

/-- `ACL.diff` (spam.py lines 835-870): `None` when the two entry sets are
equal (`self == other`); otherwise the on-the-wire dictionary with
`addList` / `removeList` comma-joined and each key dropped when its set is
empty.  Python iterates the built `set`s in unspecified order; the
embedding fixes first-occurrence order, which only affects the joined
string's ordering, not which keys appear. -/
def ACL.diff (self other : ACL) : Option (List (String × String)) :=
  if self.data.toFinset = other.data.toFinset then none
  else
    let addL := diffGo other.data [] self.data
    let remL := diffGo self.data [] other.data
    some ((if addL = [] then [] else [("addList", joinComma addL)])
          ++ (if remL = [] then [] else [("removeList", joinComma remL)]))

/-- The validation predicates attached to spam `Field`s.  The only one in
the source is `_positive` (spam.py lines 29-39), which raises on a
negative integer. -/
inductive FieldValidator where
  | positive
deriving DecidableEq, Repr

/-- Run a validator, `true` meaning the value passes (no raise).
`_positive` checks `x < 0`; Python compares booleans as 0/1, and the
validator is only ever reached after the `isinstance` check, so the string
case never arises for the integer fields it is attached to. -/
def runFieldValidator : FieldValidator → Val → Bool
  | FieldValidator.positive, Val.int n => decide (0 ≤ n)
  | FieldValidator.positive, Val.bool _ => true
  | FieldValidator.positive, Val.str _ => true

/-- The spam `Field` dataclass (spam.py lines 41-129): declared type,
default, optional tuple of allowed values, optional validator, and the
currently stored value. -/
structure SpamField where
  ftype : PyType
  fdefault : Option Val := none
  fvalid : Option (List Val) := none
  ftest : Option FieldValidator := none
  fvalue : Option Val := none
deriving DecidableEq, Repr

/-- The `Field.value` getter (spam.py lines 101-112): the stored value, or
the default when nothing is stored. -/
def SpamField.value (f : SpamField) : Option Val :=
  match f.fvalue with
  | none => f.fdefault
  | some v => some v

/-- `Field.__eq__` (spam.py lines 70-79): same class (always true here),
same declared type, same effective value. -/
def SpamField.equals (f g : SpamField) : Bool :=
  decide (f.ftype = g.ftype) && decide (f.value = g.value)

/-- Python's `isinstance(value, declaredType)` for the three schema types.
`bool` is a subclass of `int` in Python, so a boolean passes the check
against a declared `int`. -/
def isinstancePy : Val → PyType → Bool
  | Val.str _, PyType.str => true
  | Val.int _, PyType.int => true
  | Val.bool _, PyType.int => true
  | Val.bool _, PyType.bool => true
  | _, _ => false

/-- The three exceptions the `Field.value` setter can raise (spam.py lines
114-129): `TypeError` from the `isinstance` check, `ValueError` from the
allowed-values tuple, `ValueError` from the validator. -/
inductive FieldSetError where
  | typeMismatch
  | invalidEnumeration
  | validationFailed
deriving DecidableEq, Repr

/-- `isinstance(self.__valid, tuple) and value not in self.__valid`
(spam.py line 123). -/
def violatesValid (f : SpamField) (w : Val) : Bool :=
  match f.fvalid with
  | some tup => decide (w ∉ tup)
  | none => false

/-- `self.__test is not None` followed by `self.__test(value)` raising
(spam.py lines 126-127). -/
def failsValidator (f : SpamField) (w : Val) : Bool :=
  match f.ftest with
  | some t => !(runFieldValidator t w)
  | none => false

/-- The `Field.value` setter (spam.py lines 114-129): `None` clears the
stored value; otherwise the value must pass the `isinstance` check against
the declared type, membership in the allowed tuple when present, and the
validator when present, and is then stored.  There is no string-to-int
coercion here (that conversion lives in `Account.load`). -/
def SpamField.setValue (f : SpamField) (v : Option Val) : Except FieldSetError SpamField :=
  match v with
  | none => Except.ok { f with fvalue := none }
  | some w =>
      if !(isinstancePy w f.ftype) then Except.error FieldSetError.typeMismatch
      else if violatesValid f w then Except.error FieldSetError.invalidEnumeration
      else if failsValidator f w then Except.error FieldSetError.validationFailed
      else Except.ok { f with fvalue := some w }

/-- A spam `Settings` object (spam.py lines 325-716): account name (`none`
for the domain context), exchange flag, override flag, and the field
dictionary (one of the three schemas, values possibly loaded). -/
structure Settings where
  sname : Option String := none
  exchange : Bool := false
  override : Bool := false
  sdata : List (String × SpamField) := []
deriving DecidableEq, Repr

/-- `Settings.is_domain` (spam.py lines 494-497). -/
def Settings.isDomain (s : Settings) : Bool := s.sname.isNone

/-- `Settings.is_account` (spam.py lines 499-502). -/
def Settings.isAccount (s : Settings) : Bool := !s.isDomain

/-- `Settings.__DOMAIN_FIELDS` (spam.py lines 327-352). -/
def domainFields : List (String × SpamField) :=
  [("filterLevel",
    { ftype := PyType.str, fdefault := some (Val.str "on"),
      fvalid := some [Val.str "on", Val.str "off", Val.str "exclusive"] }),
   ("overrideUserSettings",
    { ftype := PyType.bool, fdefault := some (Val.bool false) }),
   ("rsEmail.spamHandling",
    { ftype := PyType.str, fdefault := some (Val.str "toFolder"),
      fvalid := some [Val.str "toFolder", Val.str "delete",
                      Val.str "labelSubject", Val.str "toAddress"] }),
   ("rsEmail.hasFolderCleaner",
    { ftype := PyType.bool, fdefault := some (Val.bool true) }),
   ("rsEmail.spamFolderAgeLimit",
    { ftype := PyType.int, fdefault := some (Val.int 7),
      ftest := some FieldValidator.positive }),
   ("rsEmail.spamFolderNumLimit",
    { ftype := PyType.int, fdefault := some (Val.int 250),
      ftest := some FieldValidator.positive }),
   ("rsEmail.spamForwardingAddress",
    { ftype := PyType.str, fdefault := some (Val.str "") }),
   ("exchange.forwardToDomainQuarantine",
    { ftype := PyType.str, fdefault := some (Val.str "off"),
      fvalid := some [Val.str "on", Val.str "off", Val.str "nonuser"] }),
   ("exchange.quarantineOwner",
    { ftype := PyType.str, fdefault := some (Val.str "") }),
   ("exchange.removeQuarantineOwner",
    { ftype := PyType.bool, fdefault := some (Val.bool false) }),
   ("exchange.defaultQuarantineOwner",
    { ftype := PyType.str, fdefault := some (Val.str "") }),
   ("exchange.removeDefaultQuarantineOwner",
    { ftype := PyType.bool, fdefault := some (Val.bool false) })]

/-- `Settings.__ACCOUNT_RS_FIELDS` (spam.py lines 354-371). -/
def accountRsFields : List (String × SpamField) :=
  [("filterLevel",
    { ftype := PyType.str, fdefault := some (Val.str "on"),
      fvalid := some [Val.str "on", Val.str "off", Val.str "exclusive"] }),
   ("rsEmail.spamHandling",
    { ftype := PyType.str, fdefault := some (Val.str "toFolder"),
      fvalid := some [Val.str "toFolder", Val.str "delete",
                      Val.str "labelSubject", Val.str "toAddress"] }),
   ("rsEmail.hasFolderCleaner",
    { ftype := PyType.bool, fdefault := some (Val.bool true) }),
   ("rsEmail.spamFolderAgeLimit",
    { ftype := PyType.int, fdefault := some (Val.int 7),
      ftest := some FieldValidator.positive }),
   ("rsEmail.spamFolderNumLimit",
    { ftype := PyType.int, fdefault := some (Val.int 250),
      ftest := some FieldValidator.positive }),
   ("rsEmail.spamForwardingAddress",
    { ftype := PyType.str, fdefault := some (Val.str "") })]

/-- `Settings.__ACCOUNT_EX_FIELDS` (spam.py lines 373-380). -/
def accountExFields : List (String × SpamField) :=
  [("filterLevel",
    { ftype := PyType.str, fdefault := some (Val.str "on"),
      fvalid := some [Val.str "on", Val.str "off", Val.str "exclusive"] }),
   ("sendtodomainquarantine",
    { ftype := PyType.bool, fdefault := some (Val.bool false) }),
   ("quarantineowner",
    { ftype := PyType.str, fdefault := some (Val.str "") }),
   ("removeQuarantineOwner",
    { ftype := PyType.bool, fdefault := some (Val.bool false) })]

/-- `Settings._get_fields` (spam.py lines 618-644): schema selection by
context (the deep copy is identity in a pure model). -/
def settingsSchema (s : Settings) : List (String × SpamField) :=
  if s.isDomain then domainFields
  else if s.exchange then accountExFields
  else accountRsFields

/-- `data.get('rsEmail.spamHandling', Field(str, '')).value` (spam.py
lines 696 and 700): the effective spam-handling value, an empty string
when the key is absent from the schema. -/
def spamHandlingOf (data : List (String × SpamField)) : Option Val :=
  ((lookupKey data "rsEmail.spamHandling").getD
    { ftype := PyType.str, fdefault := some (Val.str "") }).value

/-- `Settings.diff` (spam.py lines 509-524): for every key of the union of
the two field dictionaries, emit `(key, self value, other value)` when the
two `Field`s differ under `Field.__eq__`.  Python iterates the key union
as a set in unspecified order; the embedding fixes a dedup order.  A key
missing from either side would raise `KeyError` in the source and yields
no entry here; the key sets coincide whenever both objects carry the same
schema, which is how the source always calls it. -/
def Settings.diff (s o : Settings) : List (String × Option Val × Option Val) :=
  ((s.sdata.map Prod.fst ++ o.sdata.map Prod.fst).dedup).filterMap fun k =>
    match lookupKey s.sdata k, lookupKey o.sdata k with
    | some fa, some fb =>
        if !(SpamField.equals fa fb) then some (k, fa.value, fb.value) else none
    | _, _ => none

/-- `Settings.update` up to the API call (spam.py lines 659-716): validate
the override flag, start from the full field dictionary, drop
`rsEmail.spamForwardingAddress` when spam handling is `toFolder`, drop the
three folder-cleaner fields when it is `toAddress`, force
`overrideUserSettings` when overriding, then serialize every remaining
field as `{key: field.value}`.  The `Except.error` case is the
`_validate_override` raise. -/
def Settings.updatePayload (s : Settings) (ov : Option Bool) :
    Except String (List (String × Option Val)) :=
  let override := ov.getD s.override
  if override && s.isAccount then
    Except.error "Cannot set override on user settings"
  else
    let data := s.sdata
    let handling := spamHandlingOf data
    let data :=
      if handling = some (Val.str "toFolder") then
        eraseKey data "rsEmail.spamForwardingAddress"
      else if handling = some (Val.str "toAddress") then
        eraseKey (eraseKey (eraseKey data "rsEmail.hasFolderCleaner")
          "rsEmail.spamFolderAgeLimit") "rsEmail.spamFolderNumLimit"
      else data
    let data :=
      if override then
        updateAssoc data "overrideUserSettings"
          { ftype := PyType.bool, fdefault := some (Val.bool true) }
      else data
    Except.ok (data.map fun kv => (kv.1, kv.2.value))

/-- The shape of the value `local_object.diff(online_object)` returns, as
the `sync` driver inspects it (sync-inc.py lines 142-153): `None`
(ACL with no differences), a dictionary carrying a `changes` count
(Alias), or a plain dictionary/list whose length is tested (Account
diff map, Settings tuple list, ACL payload). -/
inductive DiffOutcome where
  | isNone
  | hasChanges (changes : Nat)
  | plain (length : Nat)
deriving DecidableEq, Repr

/-- What one `sync(fname, data)` call did (sync-inc.py lines 101-155):
whether an apply (add/set/update) was attempted, its success value when
one was (the source discards it), and whether `save_md5` ran. -/
structure SyncStepResult where
  applyAttempted : Bool
  applySucceeded : Option Bool
  md5Saved : Bool
deriving DecidableEq, Repr

/-- The control flow of `sync` in sync-inc.py (lines 101-155), with the
outcome of the remote apply call passed in as `applyResult`.  When the
online object is missing/unsuccessful (`isNew`), `add()`/`set()` is called
and `save_md5` runs right after it, without looking at the returned
success value (lines 129-137; every entity kind has one of `add`/`set`).
Otherwise the diff is inspected; `update(diff)` runs when it is non-empty,
and `save_md5` on line 155 runs unconditionally in every one of these
paths. -/
def syncStep (isNew : Bool) (d : DiffOutcome) (applyResult : Bool) :
    SyncStepResult :=
  if isNew then
    { applyAttempted := true, applySucceeded := some applyResult, md5Saved := true }
  else
    match d with
    | DiffOutcome.isNone =>
        { applyAttempted := false, applySucceeded := none, md5Saved := true }
    | DiffOutcome.hasChanges n =>
        if n > 0 then
          { applyAttempted := true, applySucceeded := some applyResult, md5Saved := true }
        else
          { applyAttempted := false, applySucceeded := none, md5Saved := true }
    | DiffOutcome.plain n =>
        if n > 0 then
          { applyAttempted := true, applySucceeded := some applyResult, md5Saved := true }
        else
          { applyAttempted := false, applySucceeded := none, md5Saved := true }

/-- How each entity kind's diff value maps onto the shape `sync` inspects:
an `Alias` diff dictionary contains `'changes'`. -/
def aliasDiffOutcome (d : AliasDiffResult) : DiffOutcome :=
  DiffOutcome.hasChanges d.changes

/-- An `Account` diff is a plain dictionary whose length `sync` tests. -/
def accountDiffOutcome (d : List (String × Val)) : DiffOutcome :=
  DiffOutcome.plain d.length

/-- An `ACL` diff is `None` or a payload dictionary whose length is
tested. -/
def aclDiffOutcome (d : Option (List (String × String))) : DiffOutcome :=
  match d with
  | none => DiffOutcome.isNone
  | some l => DiffOutcome.plain l.length

/-- Python's `str.lower()` on the ASCII names this system handles,
modelled character by character. -/
def pyLower (s : String) : String := String.mk (s.data.map Char.toLower)

/-- The desired-state account map built by `init_accounts` (sync.py lines
148-186): each configured account is stored under `acct_name.lower()`. -/
def initAccountsMap (cfg : List (String × Account)) : List (String × Account) :=
  cfg.foldl (fun acc nv => updateAssoc acc (pyLower nv.1) nv.2) []

/-- The observed-state account map built by `Accounts.get` (account.py
line 537): each provider account is stored under `account.name.lower()`. -/
def observedAccountsMap (rows : List (String × Account)) : List (String × Account) :=
  rows.foldl (fun acc nv => updateAssoc acc (pyLower nv.1) nv.2) []

/-- The alias insertion of `init_accounts` (sync.py lines 177-184): a new
alias is stored under `alias.lower()`. -/
def desiredAliasInsert (m : List (String × Alias)) (aliasName : String)
    (al : Alias) : List (String × Alias) :=
  updateAssoc m (pyLower aliasName) al

/-- The observed-state alias map built by `Aliases.get` (alias.py line
429): each provider alias is stored under `alias_obj.name.lower()`. -/
def observedAliasesMap (rows : List (String × Alias)) : List (String × Alias) :=
  rows.foldl (fun acc nv => updateAssoc acc (pyLower nv.1) nv.2) []

/-- The action sets one reconcile pass schedules: create (`add`), update,
delete (`remove`) keys. -/
structure SyncActions where
  creates : List String
  updates : List String
  deletes : List String
deriving DecidableEq, Repr

/-- `process_accounts` (sync.py lines 205-241): configured names missing
from the provider map are added; names in both are updated when
`len(diff)` is non-zero; provider names missing from the configured map
are removed. -/
def processAccounts (cfg rs : List (String × Account)) : SyncActions :=
  { creates := (cfg.filter fun kv => (lookupKey rs kv.1).isNone).map Prod.fst
    updates := cfg.filterMap fun kv =>
      match lookupKey rs kv.1 with
      | some other =>
          if (Account.diff kv.2 other).length ≠ 0 then some kv.1 else none
      | none => none
    deletes := (rs.filter fun kv => (lookupKey cfg kv.1).isNone).map Prod.fst }

/-- `process_aliases` (sync.py lines 259-289): configured names missing
from the provider map are added; names in both are replaced when
`diff['changes']` is non-zero; provider names missing from the configured
map are removed. -/
def processAliases (cfg rs : List (String × Alias)) : SyncActions :=
  { creates := (cfg.filter fun kv => (lookupKey rs kv.1).isNone).map Prod.fst
    updates := cfg.filterMap fun kv =>
      match lookupKey rs kv.1 with
      | some other =>
          if (Alias.diff kv.2 other).changes ≠ 0 then some kv.1 else none
      | none => none
    deletes := (rs.filter fun kv => (lookupKey cfg kv.1).isNone).map Prod.fst }

/-- A domain-context `Settings` object fresh from `_get_fields`, before any
`load`: every field still at its default (spam handling defaults to
`toFolder`). -/
def defaultDomainSettings : Settings :=
  { sname := none, exchange := false, override := false, sdata := domainFields }

/-- The payload `Settings.update` serializes for `defaultDomainSettings`:
spam handling is `toFolder`, so `rsEmail.spamForwardingAddress` is dropped
and every other domain-schema field appears with its effective value. -/
def defaultDomainPayload : List (String × Option Val) :=
  [("filterLevel", some (Val.str "on")),
   ("overrideUserSettings", some (Val.bool false)),
   ("rsEmail.spamHandling", some (Val.str "toFolder")),
   ("rsEmail.hasFolderCleaner", some (Val.bool true)),
   ("rsEmail.spamFolderAgeLimit", some (Val.int 7)),
   ("rsEmail.spamFolderNumLimit", some (Val.int 250)),
   ("exchange.forwardToDomainQuarantine", some (Val.str "off")),
   ("exchange.quarantineOwner", some (Val.str "")),
   ("exchange.removeQuarantineOwner", some (Val.bool false)),
   ("exchange.defaultQuarantineOwner", some (Val.str "")),
   ("exchange.removeDefaultQuarantineOwner", some (Val.bool false))]

theorem mem_diffGo (dst src : List String) :
    ∀ (acc : List String) (x : String),
      x ∈ diffGo dst acc src ↔ x ∈ acc ∨ (x ∈ src ∧ x ∉ dst) := by
  induction src with
  | nil => intro acc x; simp [diffGo]
  | cons a rest ih =>
      intro acc x
      simp only [diffGo]
      split
      · next h =>
          rw [ih]
          simp only [List.mem_append, List.mem_cons, List.not_mem_nil,
            or_false]
          constructor
          · rintro ((hx | hx) | ⟨hx, hd⟩)
            · exact Or.inl hx
            · exact Or.inr ⟨Or.inl hx, hx ▸ h.1⟩
            · exact Or.inr ⟨Or.inr hx, hd⟩
          · rintro (hx | ⟨hx | hx, hd⟩)
            · exact Or.inl (Or.inl hx)
            · exact Or.inl (Or.inr hx)
            · exact Or.inr ⟨hx, hd⟩
      · next h =>
          rw [ih]
          push_neg at h
          simp only [List.mem_cons]
          constructor
          · rintro (hx | ⟨hx, hd⟩)
            · exact Or.inl hx
            · exact Or.inr ⟨Or.inr hx, hd⟩
          · rintro (hx | ⟨hx | hx, hd⟩)
            · exact Or.inl hx
            · subst hx
              exact Or.inl (h (fun hc => absurd hc hd))
            · exact Or.inr ⟨hx, hd⟩

theorem diffGo_of_subset (dst src : List String) :
    ∀ acc, (∀ x ∈ src, x ∈ dst) → diffGo dst acc src = acc := by
  induction src with
  | nil => intro acc _; rfl
  | cons a rest ih =>
      intro acc h
      have ha : a ∈ dst := h a (List.mem_cons_self a rest)
      simp only [diffGo]
      rw [if_neg fun hc => hc.1 ha]
      exact ih acc fun x hx => h x (List.mem_cons_of_mem a hx)

theorem mem_account_diff (a b : Account) (f : String) (v : Val) :
    (f, v) ∈ Account.diff a b ↔
      ∃ t, (f, t) ∈ accountFields ∧ f ∉ accountReadOnly ∧ f ∉ accountIgnore ∧
        a.getattr f (typeDefault t) ≠ b.getattr f (typeDefault t) ∧
        v = a.getattr f (typeDefault t) := by
  simp only [Account.diff, List.mem_filterMap]
  constructor
  · rintro ⟨⟨g, t⟩, hmem, hft⟩
    by_cases hro : g ∈ accountReadOnly ∨ g ∈ accountIgnore
    · rw [if_pos hro] at hft; cases hft
    · rw [if_neg hro] at hft
      push_neg at hro
      by_cases hne : a.getattr g (typeDefault t) ≠ b.getattr g (typeDefault t)
      · simp only [if_pos hne] at hft
        injection hft with h1
        cases h1
        exact ⟨t, hmem, hro.1, hro.2, hne, rfl⟩
      · simp only [if_neg hne] at hft
        exact Option.noConfusion hft
  · rintro ⟨t, hmem, hro, hig, hne, hv⟩
    refine ⟨(f, t), hmem, ?_⟩
    rw [if_neg fun hc => hc.elim hro hig]
    simp only [if_pos hne]
    rw [hv]

theorem account_diff_eq_nil (a b : Account) :
    Account.diff a b = [] ↔
      ∀ f t, (f, t) ∈ accountFields → f ∉ accountReadOnly → f ∉ accountIgnore →
        a.getattr f (typeDefault t) = b.getattr f (typeDefault t) := by
  rw [Account.diff, List.filterMap_eq_nil_iff]
  constructor
  · intro h f t hmem hro hig
    have := h (f, t) hmem
    rw [if_neg fun hc => hc.elim hro hig] at this
    by_cases hne : a.getattr f (typeDefault t) ≠ b.getattr f (typeDefault t)
    · rw [if_pos hne] at this
      exact Option.noConfusion this
    · exact not_not.mp hne
  · rintro h ⟨f, t⟩ hmem
    by_cases hro : f ∈ accountReadOnly ∨ f ∈ accountIgnore
    · rw [if_pos hro]
    · rw [if_neg hro]
      push_neg at hro
      simp only [if_neg (not_not.mpr (h f t hmem hro.1 hro.2))]

/-- C1: diffing an entity against an identical copy of itself is empty:
`Account.diff` returns the empty map, `Alias.diff` returns `changes == 0`
with empty `add`/`del` lists, and `ACL.diff` returns the no-difference
sentinel `None`, so reconciliation schedules no update. -/
theorem diff_idempotent (a : Account) (al : Alias) (acl : ACL) :
    Account.diff a a = [] ∧
    (Alias.diff al al).changes = 0 ∧
    (Alias.diff al al).add = [] ∧
    (Alias.diff al al).del = [] ∧
    ACL.diff acl acl = none := by
  have hgo : diffGo al.data [] al.data = [] :=
    diffGo_of_subset al.data al.data [] fun x hx => hx
  refine ⟨?_, ?_, hgo, hgo, ?_⟩
  · exact (account_diff_eq_nil a a).mpr fun _ _ _ _ _ => rfl
  · show (diffGo al.data [] al.data).length
        + (diffGo al.data [] al.data).length = 0
    rw [hgo]
    rfl
  · simp [ACL.diff]

/-- C2: `Account.diff` is a directional replace diff: an entry
`{field: self value}` appears exactly for the non-read-only, non-ignored
schema fields whose defaulted self and other values differ; it always
carries the self value, and the result is empty exactly when no such field
differs. -/
theorem account_diff_directional (a b : Account) :
    accountReadOnly = ["currentUsage", "createdDate", "lastLogin", "name"] ∧
    accountIgnore = ["password", "recoverDeleted", "name", "spam"] ∧
    (∀ f v, (f, v) ∈ Account.diff a b ↔
      ∃ t, (f, t) ∈ accountFields ∧ f ∉ accountReadOnly ∧ f ∉ accountIgnore ∧
        a.getattr f (typeDefault t) ≠ b.getattr f (typeDefault t) ∧
        v = a.getattr f (typeDefault t)) ∧
    (Account.diff a b = [] ↔
      ∀ f t, (f, t) ∈ accountFields → f ∉ accountReadOnly →
        f ∉ accountIgnore →
        a.getattr f (typeDefault t) = b.getattr f (typeDefault t)) :=
  ⟨rfl, rfl, fun f v => mem_account_diff a b f v, account_diff_eq_nil a b⟩

/-- C3: the alias set-diff computes symmetric set differences:
`add` holds the addresses of `A` not in `B`, `del` the addresses of `B`
not in `A`, `diff(A,B).add = diff(B,A).del` and conversely, and `changes`
is the length of `add` plus the length of `del`. -/
theorem alias_diff_symmetry (A B : Alias) :
    (∀ x, x ∈ (Alias.diff A B).add ↔ x ∈ A.data ∧ x ∉ B.data) ∧
    (∀ x, x ∈ (Alias.diff A B).del ↔ x ∈ B.data ∧ x ∉ A.data) ∧
    (Alias.diff A B).add = (Alias.diff B A).del ∧
    (Alias.diff A B).del = (Alias.diff B A).add ∧
    (Alias.diff A B).changes
      = (Alias.diff A B).add.length + (Alias.diff A B).del.length := by
  refine ⟨?_, ?_, rfl, rfl, rfl⟩
  · intro x
    simpa using mem_diffGo B.data A.data [] x
  · intro x
    simpa using mem_diffGo A.data B.data [] x

/-- C4: `Alias.update` dispatches on the size of the change-set: a diff
with `changes > 1` issues exactly one full-replace `PUT` to the alias path
with `aliasEmails` the comma-joined desired address list; a diff with
`changes == 1` issues exactly one targeted single-item call — `POST` to
`path/<address>` when `add` is non-empty, `DELETE` of `path/<address>`
when `del` is non-empty — and never a full replace. -/
theorem alias_update_dispatch (A B : Alias) (path : String) :
    ((Alias.diff A B).changes > 1 →
      Alias.update path (Alias.diff A B)
        = AliasApiCall.put path (joinComma A.data)) ∧
    ((Alias.diff A B).changes = 1 →
      ((Alias.diff A B).add ≠ [] →
        ∃ x, (Alias.diff A B).add = [x] ∧ (Alias.diff A B).del = [] ∧
          Alias.update path (Alias.diff A B)
            = AliasApiCall.post (path ++ "/" ++ x)) ∧
      ((Alias.diff A B).del ≠ [] →
        ∃ x, (Alias.diff A B).del = [x] ∧ (Alias.diff A B).add = [] ∧
          Alias.update path (Alias.diff A B)
            = AliasApiCall.deleteReq (path ++ "/" ++ x)) ∧
      (∀ p body, Alias.update path (Alias.diff A B) ≠ AliasApiCall.put p body)) := by
  have hch : (Alias.diff A B).changes
      = (Alias.diff A B).add.length + (Alias.diff A B).del.length := rfl
  constructor
  · intro h
    rw [Alias.update, if_pos h]
    rfl
  · intro h1
    have hnot : ¬ (Alias.diff A B).changes > 1 := by omega
    refine ⟨?_, ?_, ?_⟩
    · intro hadd
      have hlen : (Alias.diff A B).add.length = 1 ∧
          (Alias.diff A B).del.length = 0 := by
        have := List.length_pos.mpr hadd
        omega
      obtain ⟨x, hx⟩ := List.length_eq_one.mp hlen.1
      have hdel : (Alias.diff A B).del = [] := List.length_eq_zero.mp hlen.2
      refine ⟨x, hx, hdel, ?_⟩
      rw [Alias.update, if_neg hnot, if_pos hadd, hx]
      rfl
    · intro hdel
      have hlen : (Alias.diff A B).del.length = 1 ∧
          (Alias.diff A B).add.length = 0 := by
        have := List.length_pos.mpr hdel
        omega
      obtain ⟨x, hx⟩ := List.length_eq_one.mp hlen.1
      have hadd : (Alias.diff A B).add = [] := List.length_eq_zero.mp hlen.2
      refine ⟨x, hx, hadd, ?_⟩
      rw [Alias.update, if_neg hnot, if_neg (by simp [hadd]), if_pos (by simp [hx]), hx]
      rfl
    · intro p body
      rw [Alias.update, if_neg hnot]
      split
      · exact fun hc => AliasApiCall.noConfusion hc
      · split
        · exact fun hc => AliasApiCall.noConfusion hc
        · exact fun hc => AliasApiCall.noConfusion hc

theorem assoc_key_unique {α : Type} :
    ∀ (l : List (String × α)), (l.map Prod.fst).Nodup →
      ∀ {f : String} {t u : α}, (f, t) ∈ l → (f, u) ∈ l → t = u := by
  intro l
  induction l with
  | nil => intro _ f t u ht; cases ht
  | cons p rest ih =>
      intro hnd f t u ht hu
      simp only [List.map_cons, List.nodup_cons] at hnd
      rcases List.mem_cons.mp ht with h1 | h1
      · rcases List.mem_cons.mp hu with h2 | h2
        · rw [← h1] at h2
          exact (Prod.mk.injEq .. ▸ h2).2.symm
        · cases h1
          exact absurd (List.mem_map_of_mem Prod.fst h2) hnd.1
      · rcases List.mem_cons.mp hu with h2 | h2
        · cases h2
          exact absurd (List.mem_map_of_mem Prod.fst h1) hnd.1
        · exact ih hnd.2 h1 h2

theorem accountFields_keys_nodup : (accountFields.map Prod.fst).Nodup := by
  decide

/-- C10: `Account.diff` compares a field absent on either side as the
declared type's zero default (`''` / `0` / `False`), so a field set on one
side to exactly that default while absent on the other contributes no
entry to the diff map. -/
theorem account_diff_default_vs_absent (a b : Account) (f : String)
    (t : PyType) (hf : (f, t) ∈ accountFields)
    (hd : (lookupKey a.attrs f = some (typeDefault t) ∧
             lookupKey b.attrs f = none) ∨
          (lookupKey a.attrs f = none ∧
             lookupKey b.attrs f = some (typeDefault t))) :
    (typeDefault PyType.str = Val.str "" ∧ typeDefault PyType.int = Val.int 0 ∧
      typeDefault PyType.bool = Val.bool false) ∧
    ∀ v, (f, v) ∉ Account.diff a b := by
  refine ⟨⟨rfl, rfl, rfl⟩, ?_⟩
  intro v hv
  obtain ⟨t2, hmem, _, _, hne, _⟩ := (mem_account_diff a b f v).mp hv
  have ht : t2 = t := assoc_key_unique accountFields accountFields_keys_nodup hmem hf
  subst ht
  apply hne
  rcases hd with ⟨h1, h2⟩ | ⟨h1, h2⟩ <;> simp [Account.getattr, h1, h2]

/-- C10 witness: an account whose `firstName` is the empty string against
an account with no `firstName` attribute produces no `firstName` entry. -/
theorem account_diff_default_vs_absent_witness :
    (typeDefault PyType.str = Val.str "" ∧ typeDefault PyType.int = Val.int 0 ∧
      typeDefault PyType.bool = Val.bool false) ∧
    ∀ v, ("firstName", v)
      ∉ Account.diff ⟨[("firstName", Val.str "")]⟩ ⟨[]⟩ :=
  account_diff_default_vs_absent ⟨[("firstName", Val.str "")]⟩ ⟨[]⟩
    "firstName" PyType.str (by decide) (Or.inl ⟨by decide, rfl⟩)

/-- C9 counterexample: constructing an alias from a plain list containing
a duplicate stores the list verbatim — `Alias.__load` performs no
deduplication, so the no-duplicates invariant fails as stated. -/
theorem alias_nodup_counterexample :
    aliasLoadData (AliasLoadData.plainList ["a@x.com", "a@x.com"])
      = some ["a@x.com", "a@x.com"] ∧
    ¬ (["a@x.com", "a@x.com"] : List String).Nodup := by
  exact ⟨rfl, by decide⟩

/-- C9 amended: a single-target provider row always yields a
duplicate-free list, a list-shaped input (plain list, emailAddressList
response, or address argument) is stored verbatim and is duplicate-free
exactly when the input already is, and `add_address` preserves freedom
from duplicates; load itself never deduplicates. -/
theorem alias_nodup_preservation :
    (∀ n s l, aliasLoadData (AliasLoadData.row n s) = some l → l.Nodup) ∧
    (∀ addrs l, aliasLoadData (AliasLoadData.emailList addrs) = some l →
      addrs.Nodup → l.Nodup) ∧
    (∀ addrs l, aliasLoadData (AliasLoadData.plainList addrs) = some l →
      addrs.Nodup → l.Nodup) ∧
    (∀ x, (aliasLoadAddress (Sum.inl x)).Nodup) ∧
    (∀ l, l.Nodup → (aliasLoadAddress (Sum.inr l)).Nodup) ∧
    (∀ data x, data.Nodup → (addAddress data x).Nodup) := by
  refine ⟨?_, ?_, ?_, ?_, ?_, ?_⟩
  · intro n s l h
    simp only [aliasLoadData] at h
    split at h
    · injection h with h
      subst h
      exact List.nodup_singleton s
    · exact Option.noConfusion h
  · intro addrs l h hnd
    injection h with h
    subst h
    exact hnd
  · intro addrs l h hnd
    injection h with h
    subst h
    exact hnd
  · intro x
    exact List.nodup_singleton x
  · intro l h
    exact h
  · intro data x h
    rw [addAddress]
    split
    · exact h
    · next hx =>
        rw [List.nodup_append]
        exact ⟨h, List.nodup_singleton x,
          fun a ha hax => hx ((List.mem_singleton.mp hax) ▸ ha)⟩

/-- C9 amended witness: `add_address` on a concrete duplicate-free list
keeps it duplicate-free. -/
theorem alias_nodup_preservation_witness :
    (addAddress ["a@x.com"] "b@x.com").Nodup :=
  alias_nodup_preservation.2.2.2.2.2 ["a@x.com"] "b@x.com" (by decide)

/-- C6 counterexample: an incremental-sync step whose diff reports two
changes and whose apply call fails (`update` returns `False`) still
persists the fingerprint — `save_md5` on sync-inc.py line 155 runs
unconditionally, so the claim that a failed apply never persists the
fingerprint is false. -/
theorem sync_md5_counterexample :
    (syncStep false (DiffOutcome.hasChanges 2) false).applyAttempted = true ∧
    (syncStep false (DiffOutcome.hasChanges 2) false).applySucceeded
      = some false ∧
    (syncStep false (DiffOutcome.hasChanges 2) false).md5Saved = true :=
  ⟨rfl, rfl, rfl⟩

/-- C6 amended: the incremental sync driver persists the entity's new
fingerprint unconditionally after the sync step — on the new-entity path
right after `add`/`set` and at the end of the diff path — regardless of
whether the apply call succeeded, so a failed apply is not retried via a
fingerprint mismatch. -/
theorem sync_md5_unconditional (isNew : Bool) (d : DiffOutcome)
    (applyResult : Bool) :
    (syncStep isNew d applyResult).md5Saved = true := by
  cases isNew <;> cases d <;> simp [syncStep] <;> split <;> rfl

/-- C7 counterexample: assigning the numeric string `'7'` to an
integer-typed spam `Field` raises `TypeError` — the `Field.value` setter
has no numeric-string coercion, contradicting the claimed int-coercion
convenience. -/
theorem field_setter_counterexample :
    SpamField.setValue { ftype := PyType.int, fdefault := some (Val.int 7) }
        (some (Val.str "7"))
      = Except.error FieldSetError.typeMismatch := rfl

/-- C7 amended: the `Field.value` setter clears to the default on `None`;
rejects with `TypeError` any value failing Python's `isinstance` check
against the declared type — including numeric strings for Integer fields,
which are NOT coerced (booleans, an `int` subclass, do pass the int
check); rejects values outside the `allowedValues` tuple; rejects values
the validator predicate refuses; and on success stores the value so the
effective value equals it. -/
theorem field_setter_contract (f : SpamField) (w : Val) :
    (SpamField.setValue f none = Except.ok { f with fvalue := none } ∧
      SpamField.value { f with fvalue := none } = f.fdefault) ∧
    (isinstancePy w f.ftype = false →
      SpamField.setValue f (some w) = Except.error FieldSetError.typeMismatch) ∧
    (∀ s, f.ftype = PyType.int →
      SpamField.setValue f (some (Val.str s))
        = Except.error FieldSetError.typeMismatch) ∧
    (isinstancePy w f.ftype = true → violatesValid f w = true →
      SpamField.setValue f (some w)
        = Except.error FieldSetError.invalidEnumeration) ∧
    (isinstancePy w f.ftype = true → violatesValid f w = false →
      failsValidator f w = true →
      SpamField.setValue f (some w)
        = Except.error FieldSetError.validationFailed) ∧
    (∀ g, SpamField.setValue f (some w) = Except.ok g →
      g.fvalue = some w ∧ g.value = some w) := by
  refine ⟨⟨rfl, rfl⟩, ?_, ?_, ?_, ?_, ?_⟩
  · intro h
    simp [SpamField.setValue, h]
  · intro s hint
    have h : isinstancePy (Val.str s) f.ftype = false := by
      rw [hint]
      rfl
    simp [SpamField.setValue, h]
  · intro h1 h2
    simp [SpamField.setValue, h1, h2]
  · intro h1 h2 h3
    simp [SpamField.setValue, h1, h2, h3]
  · intro g hg
    simp only [SpamField.setValue] at hg
    by_cases h1 : isinstancePy w f.ftype
    · rw [if_neg (by simp [h1])] at hg
      by_cases h2 : violatesValid f w
      · rw [if_pos h2] at hg
        exact Except.noConfusion hg
      · rw [if_neg h2] at hg
        by_cases h3 : failsValidator f w
        · rw [if_pos h3] at hg
          exact Except.noConfusion hg
        · rw [if_neg h3] at hg
          injection hg with hg
          subst hg
          exact ⟨rfl, rfl⟩
    · rw [if_pos (by simp [h1])] at hg
      exact Except.noConfusion hg

theorem mem_keys_updateAssoc {α : Type} :
    ∀ (l : List (String × α)) (key : String) (v : α) (k : String),
      k ∈ (updateAssoc l key v).map Prod.fst ↔
        k ∈ l.map Prod.fst ∨ k = key := by
  intro l
  induction l with
  | nil =>
      intro key v k
      simp [updateAssoc]
  | cons p rest ih =>
      intro key v k
      simp only [updateAssoc]
      split
      · next hpk =>
          simp only [List.map_cons, List.mem_cons, hpk]
          tauto
      · next hpk =>
          simp only [List.map_cons, List.mem_cons, ih]
          tauto

theorem mem_keys_foldl_lower {α : Type} :
    ∀ (cfg acc : List (String × α)) (k : String),
      k ∈ ((cfg.foldl (fun m nv => updateAssoc m (pyLower nv.1) nv.2) acc).map
        Prod.fst) →
      k ∈ acc.map Prod.fst ∨ ∃ nv, nv ∈ cfg ∧ k = pyLower nv.1 := by
  intro cfg
  induction cfg with
  | nil =>
      intro acc k hk
      exact Or.inl hk
  | cons p rest ih =>
      intro acc k hk
      rw [List.foldl_cons] at hk
      rcases ih (updateAssoc acc (pyLower p.1) p.2) k hk with h1 | ⟨nv, hnv, hkl⟩
      · rcases (mem_keys_updateAssoc acc (pyLower p.1) p.2 k).mp h1 with h2 | h2
        · exact Or.inl h2
        · exact Or.inr ⟨p, List.mem_cons_self p rest, h2⟩
      · exact Or.inr ⟨nv, List.mem_cons_of_mem p hnv, hkl⟩

/-- C8: entity identity is case-insensitive: every key of the desired and
observed maps is the lowercased form of a source name, and reconciling a
desired map with key `Foo` against an observed map with key `foo` for
semantically equal entities schedules no create, no delete and no update
— for accounts and for aliases. -/
theorem reconcile_case_insensitive (n₁ n₂ : String) (e eo : Account)
    (al alo : Alias) (h : pyLower n₁ = pyLower n₂)
    (hacct : Account.diff e eo = [])
    (halias : (Alias.diff al alo).changes = 0) :
    (∀ (cfg : List (String × Account)) (k : String),
      k ∈ (initAccountsMap cfg).map Prod.fst →
        ∃ nv, nv ∈ cfg ∧ k = pyLower nv.1) ∧
    (∀ (rows : List (String × Account)) (k : String),
      k ∈ (observedAccountsMap rows).map Prod.fst →
        ∃ nv, nv ∈ rows ∧ k = pyLower nv.1) ∧
    (∀ (rows : List (String × Alias)) (k : String),
      k ∈ (observedAliasesMap rows).map Prod.fst →
        ∃ nv, nv ∈ rows ∧ k = pyLower nv.1) ∧
    processAccounts (initAccountsMap [(n₁, e)]) (observedAccountsMap [(n₂, eo)])
      = ⟨[], [], []⟩ ∧
    processAliases (desiredAliasInsert [] n₁ al) (observedAliasesMap [(n₂, alo)])
      = ⟨[], [], []⟩ := by
  have lower_keys : ∀ {α : Type} (cfg : List (String × α)) (k : String),
      k ∈ ((cfg.foldl (fun m nv => updateAssoc m (pyLower nv.1) nv.2) []).map
        Prod.fst) → ∃ nv, nv ∈ cfg ∧ k = pyLower nv.1 := by
    intro α cfg k hk
    rcases mem_keys_foldl_lower cfg [] k hk with h1 | h1
    · cases h1
    · exact h1
  refine ⟨?_, ?_, ?_, ?_, ?_⟩
  · intro cfg k hk
    exact lower_keys cfg k hk
  · intro rows k hk
    exact lower_keys rows k hk
  · intro rows k hk
    exact lower_keys rows k hk
  · have e1 : initAccountsMap [(n₁, e)] = [(pyLower n₂, e)] := by
      show [(pyLower n₁, e)] = [(pyLower n₂, e)]
      rw [h]
    have e2 : observedAccountsMap [(n₂, eo)] = [(pyLower n₂, eo)] := rfl
    rw [e1, e2]
    simp [processAccounts, lookupKey, hacct]
  · have e1 : desiredAliasInsert [] n₁ al = [(pyLower n₂, al)] := by
      show [(pyLower n₁, al)] = [(pyLower n₂, al)]
      rw [h]
    have e2 : observedAliasesMap [(n₂, alo)] = [(pyLower n₂, alo)] := rfl
    rw [e1, e2]
    simp [processAliases, lookupKey, halias]

/-- C8 witness: a config declaring `Foo` against a provider holding `foo`
with equal entities schedules no action at all. -/
theorem reconcile_case_insensitive_witness :
    (∀ (cfg : List (String × Account)) (k : String),
      k ∈ (initAccountsMap cfg).map Prod.fst →
        ∃ nv, nv ∈ cfg ∧ k = pyLower nv.1) ∧
    (∀ (rows : List (String × Account)) (k : String),
      k ∈ (observedAccountsMap rows).map Prod.fst →
        ∃ nv, nv ∈ rows ∧ k = pyLower nv.1) ∧
    (∀ (rows : List (String × Alias)) (k : String),
      k ∈ (observedAliasesMap rows).map Prod.fst →
        ∃ nv, nv ∈ rows ∧ k = pyLower nv.1) ∧
    processAccounts (initAccountsMap [("Foo", (⟨[]⟩ : Account))])
      (observedAccountsMap [("foo", (⟨[]⟩ : Account))]) = ⟨[], [], []⟩ ∧
    processAliases
      (desiredAliasInsert [] "Foo" (⟨"Foo", ["t@x.com"]⟩ : Alias))
      (observedAliasesMap [("foo", (⟨"Foo", ["t@x.com"]⟩ : Alias))])
      = ⟨[], [], []⟩ :=
  reconcile_case_insensitive "Foo" "foo" ⟨[]⟩ ⟨[]⟩
    ⟨"Foo", ["t@x.com"]⟩ ⟨"Foo", ["t@x.com"]⟩ (by decide)
    ((account_diff_eq_nil ⟨[]⟩ ⟨[]⟩).mpr fun _ _ _ _ _ => rfl) (by decide)

theorem lookup_eq_none_iff {α : Type} :
    ∀ (l : List (String × α)) (k : String),
      lookupKey l k = none ↔ k ∉ l.map Prod.fst := by
  intro l
  induction l with
  | nil => intro k; simp [lookupKey]
  | cons p rest ih =>
      obtain ⟨k1, v⟩ := p
      intro k
      simp only [lookupKey, List.map_cons, List.mem_cons]
      split
      · next h =>
          subst h
          simp
      · next h =>
          rw [ih]
          constructor
          · intro hn hc
            rcases hc with hc | hc
            · exact h hc.symm
            · exact hn hc
          · intro hn
            exact fun hc => hn (Or.inr hc)

theorem lookup_some_mem_keys {α : Type} :
    ∀ (l : List (String × α)) (k : String) (v : α),
      lookupKey l k = some v → k ∈ l.map Prod.fst := by
  intro l
  induction l with
  | nil => intro k v h; exact Option.noConfusion h
  | cons p rest ih =>
      obtain ⟨k1, w⟩ := p
      intro k v h
      simp only [lookupKey] at h
      simp only [List.map_cons, List.mem_cons]
      split at h
      · next h1 => exact Or.inl h1.symm
      · exact Or.inr (ih k v h)

theorem keys_map_snd {α β : Type} (l : List (String × α)) (g : α → β) :
    (l.map fun kv => (kv.1, g kv.2)).map Prod.fst = l.map Prod.fst := by
  induction l with
  | nil => rfl
  | cons p rest ih => simp [ih]

theorem keys_eraseKey_subset {α : Type} :
    ∀ (l : List (String × α)) (key k : String),
      k ∈ (eraseKey l key).map Prod.fst → k ∈ l.map Prod.fst := by
  intro l
  induction l with
  | nil => intro key k hk; exact hk
  | cons p rest ih =>
      obtain ⟨k1, v⟩ := p
      intro key k hk
      simp only [eraseKey] at hk
      simp only [List.map_cons, List.mem_cons]
      split at hk
      · exact Or.inr hk
      · rcases List.mem_cons.mp hk with hc | hc
        · exact Or.inl hc
        · exact Or.inr (ih key k hc)

theorem mem_keys_eraseKey {α : Type} :
    ∀ (l : List (String × α)) (key k : String), k ≠ key →
      (k ∈ (eraseKey l key).map Prod.fst ↔ k ∈ l.map Prod.fst) := by
  intro l
  induction l with
  | nil => intro key k _; simp [eraseKey]
  | cons p rest ih =>
      obtain ⟨k1, v⟩ := p
      intro key k h
      simp only [eraseKey]
      split
      · next h1 =>
          subst h1
          simp only [List.map_cons, List.mem_cons]
          constructor
          · exact Or.inr
          · rintro (hk | hk)
            · exact absurd hk h
            · exact hk
      · next h1 =>
          simp only [List.map_cons, List.mem_cons]
          rw [ih key k h]

theorem nodup_keys_eraseKey {α : Type} :
    ∀ (l : List (String × α)), (l.map Prod.fst).Nodup →
      ∀ key, ((eraseKey l key).map Prod.fst).Nodup := by
  intro l
  induction l with
  | nil => intro _ key; exact List.nodup_nil
  | cons p rest ih =>
      obtain ⟨k1, v⟩ := p
      intro hnd key
      simp only [List.map_cons, List.nodup_cons] at hnd
      simp only [eraseKey]
      split
      · exact hnd.2
      · simp only [List.map_cons, List.nodup_cons]
        exact ⟨fun hc => hnd.1 (keys_eraseKey_subset rest key k1 hc), ih hnd.2 key⟩

theorem not_mem_keys_eraseKey_self {α : Type} :
    ∀ (l : List (String × α)), (l.map Prod.fst).Nodup →
      ∀ key, key ∉ (eraseKey l key).map Prod.fst := by
  intro l
  induction l with
  | nil => intro _ key hk; cases hk
  | cons p rest ih =>
      obtain ⟨k1, v⟩ := p
      intro hnd key hk
      simp only [List.map_cons, List.nodup_cons] at hnd
      simp only [eraseKey] at hk
      by_cases h1 : k1 = key
      · rw [if_pos h1] at hk
        exact hnd.1 (h1 ▸ hk)
      · rw [if_neg h1] at hk
        rcases List.mem_cons.mp hk with hc | hc
        · exact h1 hc.symm
        · exact ih hnd.2 key hc

/-- C5: SpamSettings mutual exclusion is enforced at serialization time:
when `rsEmail.spamHandling` evaluates to `toFolder` the serialized update
payload omits `rsEmail.spamForwardingAddress`; when it evaluates to
`toAddress` the payload omits the three folder-cleaner fields; in every
case all other fields of the field dictionary are serialized (full
field-set serialization); and `diff()` still compares the excluded
fields. -/
theorem settings_serialize_exclusion (s : Settings)
    (payload : List (String × Option Val))
    (hnd : (s.sdata.map Prod.fst).Nodup)
    (h : Settings.updatePayload s none = Except.ok payload) :
    (spamHandlingOf s.sdata = some (Val.str "toFolder") →
      "rsEmail.spamForwardingAddress" ∉ payload.map Prod.fst ∧
      ∀ k, k ∈ s.sdata.map Prod.fst → k ≠ "rsEmail.spamForwardingAddress" →
        k ∈ payload.map Prod.fst) ∧
    (spamHandlingOf s.sdata = some (Val.str "toAddress") →
      ("rsEmail.hasFolderCleaner" ∉ payload.map Prod.fst ∧
       "rsEmail.spamFolderAgeLimit" ∉ payload.map Prod.fst ∧
       "rsEmail.spamFolderNumLimit" ∉ payload.map Prod.fst) ∧
      ∀ k, k ∈ s.sdata.map Prod.fst → k ≠ "rsEmail.hasFolderCleaner" →
        k ≠ "rsEmail.spamFolderAgeLimit" → k ≠ "rsEmail.spamFolderNumLimit" →
        k ∈ payload.map Prod.fst) ∧
    (spamHandlingOf s.sdata ≠ some (Val.str "toFolder") →
      spamHandlingOf s.sdata ≠ some (Val.str "toAddress") →
      ∀ k, k ∈ s.sdata.map Prod.fst → k ∈ payload.map Prod.fst) ∧
    (∀ (o : Settings) (k : String) (fa fb : SpamField),
      lookupKey s.sdata k = some fa → lookupKey o.sdata k = some fb →
      SpamField.equals fa fb = false →
      (k, fa.value, fb.value) ∈ Settings.diff s o) := by
  simp only [Settings.updatePayload, Option.getD_none] at h
  split at h
  · exact Except.noConfusion h
  · injection h with h
    subst h
    have hmono : ∀ (d : List (String × SpamField)) (k : String),
        k ∈ d.map Prod.fst →
        k ∈ ((if s.override = true then
            updateAssoc d "overrideUserSettings"
              { ftype := PyType.bool, fdefault := some (Val.bool true) }
          else d).map Prod.fst) := by
      intro d k hk
      by_cases hso : s.override = true
      · rw [if_pos hso]
        exact (mem_keys_updateAssoc d "overrideUserSettings" _ k).mpr (Or.inl hk)
      · rw [if_neg hso]
        exact hk
    have hback : ∀ (d : List (String × SpamField)) (k : String),
        k ≠ "overrideUserSettings" →
        k ∈ ((if s.override = true then
            updateAssoc d "overrideUserSettings"
              { ftype := PyType.bool, fdefault := some (Val.bool true) }
          else d).map Prod.fst) → k ∈ d.map Prod.fst := by
      intro d k hkne hk
      by_cases hso : s.override = true
      · rw [if_pos hso] at hk
        rcases (mem_keys_updateAssoc d "overrideUserSettings" _ k).mp hk with
          hc | hc
        · exact hc
        · exact absurd hc hkne
      · rw [if_neg hso] at hk
        exact hk
    refine ⟨?_, ?_, ?_, ?_⟩
    · intro hf
      rw [if_pos hf]
      constructor
      · intro hk
        rw [keys_map_snd] at hk
        exact not_mem_keys_eraseKey_self s.sdata hnd
          "rsEmail.spamForwardingAddress"
          (hback _ _ (by decide) hk)
      · intro k hk hkne
        rw [keys_map_snd]
        exact hmono _ k
          ((mem_keys_eraseKey s.sdata "rsEmail.spamForwardingAddress" k
            hkne).mpr hk)
    · intro ha
      have hno : spamHandlingOf s.sdata ≠ some (Val.str "toFolder") := by
        rw [ha]
        intro hc
        exact Val.noConfusion (Option.some.inj hc) fun he => by
          exact absurd he (by decide)
      rw [if_neg hno, if_pos ha]
      have hnd1 : ((eraseKey s.sdata "rsEmail.hasFolderCleaner").map
          Prod.fst).Nodup := nodup_keys_eraseKey s.sdata hnd _
      have hnd2 : ((eraseKey (eraseKey s.sdata "rsEmail.hasFolderCleaner")
          "rsEmail.spamFolderAgeLimit").map Prod.fst).Nodup :=
        nodup_keys_eraseKey _ hnd1 _
      refine ⟨⟨?_, ?_, ?_⟩, ?_⟩
      · intro hk
        rw [keys_map_snd] at hk
        have hk2 := hback _ _ (by decide) hk
        have hk3 := (mem_keys_eraseKey _ "rsEmail.spamFolderNumLimit"
          "rsEmail.hasFolderCleaner" (by decide)).mp hk2
        have hk4 := (mem_keys_eraseKey _ "rsEmail.spamFolderAgeLimit"
          "rsEmail.hasFolderCleaner" (by decide)).mp hk3
        exact not_mem_keys_eraseKey_self s.sdata hnd
          "rsEmail.hasFolderCleaner" hk4
      · intro hk
        rw [keys_map_snd] at hk
        have hk2 := hback _ _ (by decide) hk
        have hk3 := (mem_keys_eraseKey _ "rsEmail.spamFolderNumLimit"
          "rsEmail.spamFolderAgeLimit" (by decide)).mp hk2
        exact not_mem_keys_eraseKey_self _ hnd1
          "rsEmail.spamFolderAgeLimit" hk3
      · intro hk
        rw [keys_map_snd] at hk
        have hk2 := hback _ _ (by decide) hk
        exact not_mem_keys_eraseKey_self _ hnd2
          "rsEmail.spamFolderNumLimit" hk2
      · intro k hk h1 h2 h3
        rw [keys_map_snd]
        refine hmono _ k ?_
        refine (mem_keys_eraseKey _ _ _ h3).mpr ?_
        refine (mem_keys_eraseKey _ _ _ h2).mpr ?_
        exact (mem_keys_eraseKey _ _ _ h1).mpr hk
    · intro hnf hna k hk
      rw [if_neg hnf, if_neg hna, keys_map_snd]
      exact hmono _ k hk
    · intro o k fa fb h1 h2 h3
      rw [Settings.diff]
      refine List.mem_filterMap.mpr ⟨k, ?_, ?_⟩
      · exact List.mem_dedup.mpr
          (List.mem_append_left _ (lookup_some_mem_keys s.sdata k fa h1))
      · rw [h1, h2]
        simp [h3]

/-- C5 witness: the default domain settings (spam handling `toFolder`)
serialize without `rsEmail.spamForwardingAddress`, with every other
domain-schema field present, and the excluded field is still compared by
`diff()`. -/
theorem settings_serialize_exclusion_witness :
    (spamHandlingOf defaultDomainSettings.sdata = some (Val.str "toFolder") →
      "rsEmail.spamForwardingAddress" ∉ defaultDomainPayload.map Prod.fst ∧
      ∀ k, k ∈ defaultDomainSettings.sdata.map Prod.fst →
        k ≠ "rsEmail.spamForwardingAddress" →
        k ∈ defaultDomainPayload.map Prod.fst) ∧
    (spamHandlingOf defaultDomainSettings.sdata = some (Val.str "toAddress") →
      ("rsEmail.hasFolderCleaner" ∉ defaultDomainPayload.map Prod.fst ∧
       "rsEmail.spamFolderAgeLimit" ∉ defaultDomainPayload.map Prod.fst ∧
       "rsEmail.spamFolderNumLimit" ∉ defaultDomainPayload.map Prod.fst) ∧
      ∀ k, k ∈ defaultDomainSettings.sdata.map Prod.fst →
        k ≠ "rsEmail.hasFolderCleaner" → k ≠ "rsEmail.spamFolderAgeLimit" →
        k ≠ "rsEmail.spamFolderNumLimit" →
        k ∈ defaultDomainPayload.map Prod.fst) ∧
    (spamHandlingOf defaultDomainSettings.sdata ≠ some (Val.str "toFolder") →
      spamHandlingOf defaultDomainSettings.sdata ≠ some (Val.str "toAddress") →
      ∀ k, k ∈ defaultDomainSettings.sdata.map Prod.fst →
        k ∈ defaultDomainPayload.map Prod.fst) ∧
    (∀ (o : Settings) (k : String) (fa fb : SpamField),
      lookupKey defaultDomainSettings.sdata k = some fa →
      lookupKey o.sdata k = some fb →
      SpamField.equals fa fb = false →
      (k, fa.value, fb.value) ∈ Settings.diff defaultDomainSettings o) :=
  settings_serialize_exclusion defaultDomainSettings defaultDomainPayload
    (by decide) rfl
